import Mathlib

/-!
Verification development for the btcrpcclient chain-operation facade
(`chain.go`): a shallow embedding of the per-operation future `Receive`
decoders, the `*Async` request constructors, and the blocking wrappers,
together with theorems about the decode rules.

Go `(T, error)` return pairs are embedded as `GoPair`, raw reply payloads
as `String`, and JSON decoding (`encoding/json`'s `json.Unmarshal`) as an
executable parser plus per-target conversion functions mirroring Go's
unmarshal semantics (JSON `null` leaves the target at its prior/zero value;
missing object keys are not errors; unknown keys are ignored).
-/

/-- Error values observable from this library.  Mirrors the error sources of
`chain.go`: errors delivered through the future (`rpcErr`, `connClosed`),
JSON syntax and unmarshal-type errors from `encoding/json`, hex errors from
`encoding/hex`, the hash-size error from `chainhash`, and errors reported by
the external binary block deserializer. -/
inductive Err where
  | rpcErr (message : String)
  | connClosed
  | malformed (message : String)
  | typeMismatch (value target : String)
  | rangeErr (value target : String)
  | hexInvalidByte (c : Char)
  | hexOddLength
  | hashStrSize
  | deserErr (message : String)
deriving DecidableEq, Repr

/-- Classification used by the spec's taxonomy: `FormatError` covers the
hex / hash-size failures of the string-to-hash decode. -/
def Err.isFormat : Err → Bool
  | .hexInvalidByte _ => true
  | .hexOddLength => true
  | .hashStrSize => true
  | _ => false

/-- Classification used by the spec's taxonomy: `DecodeError` covers JSON
syntax errors, unmarshal type mismatches, numeric range failures, and
external deserializer failures. -/
def Err.isDecode : Err → Bool
  | .malformed _ => true
  | .typeMismatch _ _ => true
  | .rangeErr _ _ => true
  | .deserErr _ => true
  | _ => false

/-- Embedding of a Go `(T, error)` return pair: `val` is the first returned
value (the zero value on error paths) and `err` the second. -/
structure GoPair (α : Type) where
  val : α
  err : Option Err
deriving DecidableEq, Repr

/-- Value of a hex digit, per `encoding/hex.fromHexChar`:
`0-9`, `a-f`, `A-F`. -/
def hexVal (c : Char) : Option Nat :=
  if '0' ≤ c ∧ c ≤ '9' then some (c.toNat - 48)
  else if 'a' ≤ c ∧ c ≤ 'f' then some (c.toNat - 87)
  else if 'A' ≤ c ∧ c ≤ 'F' then some (c.toNat - 55)
  else none

/-- `encoding/hex` decoding of a character sequence into bytes: pairs of hex
digits in order; an invalid digit fails with `hexInvalidByte`, an odd-length
input whose digits are all valid fails with `hexOddLength` (Go's
`hex.ErrLength`). -/
def hexDecodeChars : List Char → Except Err (List Nat)
  | [] => .ok []
  | [c] =>
    match hexVal c with
    | none => .error (.hexInvalidByte c)
    | some _ => .error .hexOddLength
  | a :: b :: rest =>
    match hexVal a with
    | none => .error (.hexInvalidByte a)
    | some x =>
      match hexVal b with
      | none => .error (.hexInvalidByte b)
      | some y => (hexDecodeChars rest).map (fun t => (16 * x + y) :: t)

/-- A `chainhash.Hash`: 32 bytes, little-endian order (reverse of the
usual hex display order). -/
def Hash := List Nat
deriving DecidableEq, Repr

/-- `chainhash.MaxHashStringSize`: maximum length of a hash string. -/
def MaxHashStringSize : Nat := 64

/-- `chainhash.HashSize`: size of a hash in bytes. -/
def HashSize : Nat := 32

/-- Lowercase hex digit character for a nibble. -/
def hexDigit (n : Nat) : Char :=
  if n < 10 then Char.ofNat (48 + n) else Char.ofNat (87 + n)

/-- Hex encoding of a byte sequence, two lowercase digits per byte. -/
def hexEncode (bs : List Nat) : List Char :=
  bs.foldr (fun b acc => hexDigit (b / 16) :: hexDigit (b % 16) :: acc) []

/-- `chainhash.Hash.String`: the hex rendering of the reversed bytes. -/
def hashToStr (h : Hash) : String :=
  String.mk (hexEncode (List.reverse h))

/-- `chainhash.NewHashFromStr` / `chainhash.Decode`: reject strings longer
than `MaxHashStringSize`; left-pad odd-length strings with `'0'`; hex-decode
into the tail of a zeroed 32-byte buffer; return the reversed buffer. -/
def NewHashFromStr (s : String) : Except Err Hash :=
  if MaxHashStringSize < s.length then .error .hashStrSize
  else
    let src := if s.length % 2 = 0 then s.data else '0' :: s.data
    match hexDecodeChars src with
    | .error e => .error e
    | .ok bs => .ok (List.reverse (List.replicate (HashSize - bs.length) 0 ++ bs))

/-! ### JSON values and the `encoding/json` syntax layer -/

/-- A JSON number literal as scanned by `encoding/json`:
sign, integer-part digits, optional fraction digits, optional signed
exponent digits.  The literal form (not only the value) is kept because
Go decodes numbers into integer targets via `strconv.ParseInt` on the
literal text. -/
structure NumLit where
  neg : Bool
  ip : List Char
  fp : Option (List Char)
  ep : Option (Bool × List Char)
deriving DecidableEq, Repr

/-- A parsed JSON document.  Object fields are kept as the ordered list of
key/value pairs appearing in the text (duplicates retained; consumers fold
over them in order, so a later duplicate overwrites - Go's behavior). -/
inductive Json where
  | null
  | bool (b : Bool)
  | num (l : NumLit)
  | str (s : String)
  | arr (elems : List Json)
  | obj (fields : List (String × Json))
deriving Repr

def Json.isNull : Json → Bool
  | .null => true
  | _ => false

def Json.isNum : Json → Bool
  | .num _ => true
  | _ => false

def Json.isBool : Json → Bool
  | .bool _ => true
  | _ => false

/-- Short description of a JSON value's kind, used in error messages
(mirrors the value description in Go's `UnmarshalTypeError`). -/
def Json.kind : Json → String
  | .null => "null"
  | .bool _ => "bool"
  | .num _ => "number"
  | .str _ => "string"
  | .arr _ => "array"
  | .obj _ => "object"

/-- JSON whitespace per RFC 7159 / Go's scanner. -/
def isJsonWs (c : Char) : Bool :=
  c = ' ' || c = '\t' || c = '\n' || c = '\r'

def skipWs : List Char → List Char
  | [] => []
  | c :: cs => if isJsonWs c then skipWs cs else c :: cs

/-- The `'\x7b'` character (opening curly bracket). -/
def lbrace : Char := Char.ofNat 123

/-- The `'\x7d'` character (closing curly bracket). -/
def rbrace : Char := Char.ofNat 125

/-- Four hex digits (for `\u` escapes). -/
def parseHex4 : List Char → Option (Nat × List Char)
  | a :: b :: c :: d :: rest =>
    match hexVal a, hexVal b, hexVal c, hexVal d with
    | some x, some y, some z, some w => some (((x * 16 + y) * 16 + z) * 16 + w, rest)
    | _, _, _, _ => none
  | _ => none

/-- Single-character string escapes accepted by JSON. -/
def escChar (c : Char) : Option Char :=
  if c = '"' then some '"'
  else if c = '\\' then some '\\'
  else if c = '/' then some '/'
  else if c = 'b' then some (Char.ofNat 8)
  else if c = 'f' then some (Char.ofNat 12)
  else if c = 'n' then some '\n'
  else if c = 'r' then some '\r'
  else if c = 't' then some '\t'
  else none

/-- Body of a JSON string after the opening quote: ordinary characters up
to the closing quote, escapes, `\u` escapes with surrogate-pair handling
(a lone or ill-paired surrogate becomes U+FFFD, as in Go's `unquote`),
and rejection of unescaped control characters. -/
def parseStrLoop : Nat → List Char → Except Err (List Char × List Char)
  | 0, _ => .error (.malformed "string nesting fuel exhausted")
  | _ + 1, [] => .error (.malformed "unexpected end of JSON input")
  | fuel + 1, c :: cs =>
    if c = '"' then .ok ([], cs)
    else if c = '\\' then
      match cs with
      | [] => .error (.malformed "unexpected end of JSON input")
      | e :: cs2 =>
        if e = 'u' then
          match parseHex4 cs2 with
          | none => .error (.malformed "invalid character in string escape code")
          | some (n, cs3) =>
            if 0xD800 ≤ n ∧ n < 0xDC00 then
              match cs3 with
              | '\\' :: 'u' :: cs4 =>
                match parseHex4 cs4 with
                | some (m, cs5) =>
                  if 0xDC00 ≤ m ∧ m < 0xE000 then
                    (parseStrLoop fuel cs5).map
                      (fun p => (Char.ofNat (0x10000 + (n - 0xD800) * 0x400 + (m - 0xDC00)) :: p.1, p.2))
                  else
                    (parseStrLoop fuel cs3).map (fun p => ('�' :: p.1, p.2))
                | none => (parseStrLoop fuel cs3).map (fun p => ('�' :: p.1, p.2))
              | _ => (parseStrLoop fuel cs3).map (fun p => ('�' :: p.1, p.2))
            else if 0xDC00 ≤ n ∧ n < 0xE000 then
              (parseStrLoop fuel cs3).map (fun p => ('�' :: p.1, p.2))
            else
              (parseStrLoop fuel cs3).map (fun p => (Char.ofNat n :: p.1, p.2))
        else
          match escChar e with
          | some ch => (parseStrLoop fuel cs2).map (fun p => (ch :: p.1, p.2))
          | none => .error (.malformed "invalid character in string escape code")
    else if c.toNat < 0x20 then .error (.malformed "invalid character in string literal")
    else (parseStrLoop fuel cs).map (fun p => (c :: p.1, p.2))

/-- Longest digit run at the head of the input. -/
def takeDigits : List Char → List Char × List Char
  | [] => ([], [])
  | c :: cs =>
    if '0' ≤ c ∧ c ≤ '9' then
      let p := takeDigits cs
      (c :: p.1, p.2)
    else ([], c :: cs)

/-- Optional exponent part of a number literal. -/
def parseExpPart (neg : Bool) (ip : List Char) (fp : Option (List Char)) :
    List Char → Except Err (NumLit × List Char)
  | [] => .ok (⟨neg, ip, fp, none⟩, [])
  | e :: cs1 =>
    if e = 'e' ∨ e = 'E' then
      let sd : Bool × List Char :=
        match cs1 with
        | '+' :: t => (false, t)
        | '-' :: t => (true, t)
        | _ => (false, cs1)
      let p := takeDigits sd.2
      if p.1 = [] then .error (.malformed "invalid number literal")
      else .ok (⟨neg, ip, fp, some (sd.1, p.1)⟩, p.2)
    else .ok (⟨neg, ip, fp, none⟩, e :: cs1)

/-- A JSON number literal per the RFC 7159 grammar Go's scanner enforces:
optional minus, `0` or a nonzero-led digit run, optional fraction,
optional exponent. -/
def parseNumLit (cs : List Char) : Except Err (NumLit × List Char) :=
  let sp : Bool × List Char :=
    match cs with
    | '-' :: t => (true, t)
    | _ => (false, cs)
  match sp.2 with
  | [] => .error (.malformed "invalid number literal")
  | c :: _ =>
    if '0' ≤ c ∧ c ≤ '9' then
      let p := takeDigits sp.2
      if p.1.headD '0' = '0' ∧ 1 < p.1.length then .error (.malformed "invalid number literal")
      else
        match p.2 with
        | '.' :: cs3 =>
          let q := takeDigits cs3
          if q.1 = [] then .error (.malformed "invalid number literal")
          else parseExpPart sp.1 p.1 (some q.1) q.2
        | _ => parseExpPart sp.1 p.1 none p.2
    else .error (.malformed "invalid number literal")

mutual

/-- One JSON value, recursive-descent with explicit fuel (the input length
bounds the recursion depth, since every nesting level consumes a
character). -/
def parseVal : Nat → List Char → Except Err (Json × List Char)
  | 0, _ => .error (.malformed "value nesting fuel exhausted")
  | fuel + 1, cs =>
    match skipWs cs with
    | [] => .error (.malformed "unexpected end of JSON input")
    | c :: rest =>
      if c = 'n' then
        match rest with
        | 'u' :: 'l' :: 'l' :: r => .ok (.null, r)
        | _ => .error (.malformed "invalid character in literal")
      else if c = 't' then
        match rest with
        | 'r' :: 'u' :: 'e' :: r => .ok (.bool true, r)
        | _ => .error (.malformed "invalid character in literal")
      else if c = 'f' then
        match rest with
        | 'a' :: 'l' :: 's' :: 'e' :: r => .ok (.bool false, r)
        | _ => .error (.malformed "invalid character in literal")
      else if c = '"' then
        (parseStrLoop (rest.length + 1) rest).map (fun p => (.str (String.mk p.1), p.2))
      else if c = '-' ∨ ('0' ≤ c ∧ c ≤ '9') then
        (parseNumLit (c :: rest)).map (fun p => (.num p.1, p.2))
      else if c = '[' then
        match skipWs rest with
        | [] => .error (.malformed "unexpected end of JSON input")
        | d :: r2 =>
          if d = ']' then .ok (.arr [], r2)
          else (parseArrElems fuel (d :: r2)).map (fun p => (.arr p.1, p.2))
      else if c = lbrace then
        match skipWs rest with
        | [] => .error (.malformed "unexpected end of JSON input")
        | d :: r2 =>
          if d = rbrace then .ok (.obj [], r2)
          else (parseObjFields fuel (d :: r2)).map (fun p => (.obj p.1, p.2))
      else .error (.malformed "invalid character looking for beginning of value")

/-- Elements of a nonempty JSON array, after the opening bracket. -/
def parseArrElems : Nat → List Char → Except Err (List Json × List Char)
  | 0, _ => .error (.malformed "value nesting fuel exhausted")
  | fuel + 1, cs =>
    match parseVal fuel cs with
    | .error e => .error e
    | .ok (v, r) =>
      match skipWs r with
      | ',' :: r2 => (parseArrElems fuel r2).map (fun p => (v :: p.1, p.2))
      | ']' :: r2 => .ok ([v], r2)
      | _ => .error (.malformed "invalid character after array element")

/-- Fields of a nonempty JSON object, after the opening bracket. -/
def parseObjFields : Nat → List Char → Except Err (List (String × Json) × List Char)
  | 0, _ => .error (.malformed "value nesting fuel exhausted")
  | fuel + 1, cs =>
    match skipWs cs with
    | '"' :: r =>
      match parseStrLoop (r.length + 1) r with
      | .error e => .error e
      | .ok (k, r1) =>
        match skipWs r1 with
        | ':' :: r2 =>
          match parseVal fuel r2 with
          | .error e => .error e
          | .ok (v, r3) =>
            match skipWs r3 with
            | ',' :: r4 => (parseObjFields fuel r4).map (fun p => ((String.mk k, v) :: p.1, p.2))
            | d :: r4 =>
              if d = rbrace then .ok ([(String.mk k, v)], r4)
              else .error (.malformed "invalid character after object key:value pair")
            | [] => .error (.malformed "unexpected end of JSON input")
        | _ => .error (.malformed "invalid character after object key")
    | _ => .error (.malformed "invalid character looking for beginning of object key string")

end

/-- The syntax-check-plus-scan layer of `json.Unmarshal`: parse the whole
payload as one JSON document, rejecting trailing non-whitespace. -/
def parseJson (s : String) : Except Err Json :=
  match parseVal (s.length + 1) s.data with
  | .error e => .error e
  | .ok (j, r) => if skipWs r = [] then .ok j else .error (.malformed "invalid character after top-level value")

/-! ### The per-target conversion layer of `json.Unmarshal`

Each conversion takes the target's previous value (its zero value for a
fresh variable) because Go's unmarshal leaves the target unchanged on JSON
`null` and overwrites on a duplicate object key. -/

/-- Numeric value of a digit run. -/
def digitsVal (ds : List Char) : Nat :=
  ds.foldl (fun a c => 10 * a + (c.toNat - 48)) 0

/-- `strconv.ParseInt` on a JSON number literal, as used by `json.Unmarshal`
for signed-integer targets: the literal must be a plain integer (no
fraction, no exponent) and fit the 64-bit range. -/
def NumLit.intVal? (l : NumLit) : Option Int :=
  match l.fp, l.ep with
  | none, none =>
    let m : Int := digitsVal l.ip
    let v : Int := if l.neg then -m else m
    if -(2 ^ 63) ≤ v ∧ v < 2 ^ 63 then some v else none
  | _, _ => none

/-- As `intVal?` but for the 32-bit range (`int32` targets). -/
def NumLit.int32Val? (l : NumLit) : Option Int :=
  match l.fp, l.ep with
  | none, none =>
    let m : Int := digitsVal l.ip
    let v : Int := if l.neg then -m else m
    if -(2 ^ 31) ≤ v ∧ v < 2 ^ 31 then some v else none
  | _, _ => none

/-- Exact rational value of a number literal. -/
def NumLit.toRat (l : NumLit) : Rat :=
  let fd : Nat := (l.fp.getD []).length
  let mant : Int := digitsVal l.ip * 10 ^ fd + digitsVal (l.fp.getD [])
  let mant : Int := if l.neg then -mant else mant
  let ex : Int :=
    (match l.ep with
     | none => 0
     | some (en, ds) => if en then -(digitsVal ds : Int) else (digitsVal ds : Int)) - fd
  if 0 ≤ ex then (mant : Rat) * (10 : Rat) ^ ex.toNat
  else (mant : Rat) / (10 : Rat) ^ (-ex).toNat

/-- Overflow threshold of `strconv.ParseFloat` for `float64` targets:
magnitudes at or above this bound round to infinity and fail.  (The decoded
value itself is kept as the literal's exact rational; IEEE-754 rounding of
in-range values is outside the scope of this development.) -/
def maxFloat64 : Rat := ((2 : Int) ^ 1024 - (2 : Int) ^ 970 : Int)

/-- Unmarshal a JSON value into a `string` target. -/
def jsonToString (prev : String) : Json → Except Err String
  | .null => .ok prev
  | .str s => .ok s
  | j => .error (.typeMismatch j.kind "string")

/-- Unmarshal a JSON value into an `int64` target. -/
def jsonToInt64 (prev : Int) : Json → Except Err Int
  | .null => .ok prev
  | .num l =>
    match l.intVal? with
    | some v => .ok v
    | none => .error (.typeMismatch "number" "int64")
  | j => .error (.typeMismatch j.kind "int64")

/-- Unmarshal a JSON value into an `int32` target. -/
def jsonToInt32 (prev : Int) : Json → Except Err Int
  | .null => .ok prev
  | .num l =>
    match l.int32Val? with
    | some v => .ok v
    | none => .error (.typeMismatch "number" "int32")
  | j => .error (.typeMismatch j.kind "int32")

/-- Unmarshal a JSON value into a `bool` target. -/
def jsonToBool (prev : Bool) : Json → Except Err Bool
  | .null => .ok prev
  | .bool b => .ok b
  | j => .error (.typeMismatch j.kind "bool")

/-- Unmarshal a JSON value into a `float64` target (value kept as the
exact rational; see `maxFloat64`). -/
def jsonToFloat (prev : Rat) : Json → Except Err Rat
  | .null => .ok prev
  | .num l => if maxFloat64 ≤ |l.toRat| then .error (.rangeErr "number" "float64") else .ok l.toRat
  | j => .error (.typeMismatch j.kind "float64")

/-- Unmarshal a JSON value into a `[]string` target (`none` is the nil
slice). -/
def jsonToStringArr (prev : Option (List String)) : Json → Except Err (Option (List String))
  | .null => .ok prev
  | .arr es => (es.mapM (fun e => jsonToString "" e)).map some
  | j => .error (.typeMismatch j.kind "[]string")

/-- ASCII case folding (sufficient for the field tags involved here). -/
def foldChar (c : Char) : Char :=
  if 'A' ≤ c ∧ c ≤ 'Z' then Char.ofNat (c.toNat + 32) else c

/-- Case-insensitive key comparison, as Go's field matching
(`strings.EqualFold` on the json tag). -/
def eqFold (a b : String) : Bool :=
  a.data.map foldChar = b.data.map foldChar

/-! ### The `btcjson` result records reached by the modeled operations -/

/-- `btcjson.ScriptPubKeyResult` (fields `Asm`, `Hex`, `ReqSigs`, `Type`,
`Addresses` with json tags `asm`, `hex`, `reqSigs`, `type`, `addresses`;
`Type` is rendered here as `typ` since `type` is reserved). -/
structure ScriptPubKeyResult where
  asm : String
  hex : String
  reqSigs : Int
  typ : String
  addresses : Option (List String)
deriving DecidableEq, Repr

/-- The zero `ScriptPubKeyResult`. -/
def zeroSPK : ScriptPubKeyResult := ⟨"", "", 0, "", none⟩

/-- Decode one object entry into a `ScriptPubKeyResult` under Go's field
matching: known tags update their field, unknown keys are ignored. -/
def spkField (r : ScriptPubKeyResult) (k : String) (v : Json) : Except Err ScriptPubKeyResult :=
  if eqFold k "asm" then (jsonToString r.asm v).map (fun x => { r with asm := x })
  else if eqFold k "hex" then (jsonToString r.hex v).map (fun x => { r with hex := x })
  else if eqFold k "reqSigs" then (jsonToInt32 r.reqSigs v).map (fun x => { r with reqSigs := x })
  else if eqFold k "type" then (jsonToString r.typ v).map (fun x => { r with typ := x })
  else if eqFold k "addresses" then (jsonToStringArr r.addresses v).map (fun x => { r with addresses := x })
  else .ok r

/-- Unmarshal a JSON value into a `ScriptPubKeyResult` target. -/
def jsonToSPK (prev : ScriptPubKeyResult) : Json → Except Err ScriptPubKeyResult
  | .null => .ok prev
  | .obj fs => fs.foldlM (fun r kv => spkField r kv.1 kv.2) prev
  | j => .error (.typeMismatch j.kind "ScriptPubKeyResult")

/-- `btcjson.GetTxOutResult` (fields `BestBlock`, `Confirmations`, `Value`,
`ScriptPubKey`, `Version`, `Coinbase` with json tags `bestblock`,
`confirmations`, `value`, `scriptPubKey`, `version`, `coinbase`). -/
structure GetTxOutResult where
  bestBlock : String
  confirmations : Int
  value : Rat
  scriptPubKey : ScriptPubKeyResult
  version : Int
  coinbase : Bool
deriving DecidableEq, Repr

/-- The zero `GetTxOutResult`. -/
def zeroTxOut : GetTxOutResult := ⟨"", 0, 0, zeroSPK, 0, false⟩

/-- Decode one object entry into a `GetTxOutResult`. -/
def txOutField (r : GetTxOutResult) (k : String) (v : Json) : Except Err GetTxOutResult :=
  if eqFold k "bestblock" then (jsonToString r.bestBlock v).map (fun x => { r with bestBlock := x })
  else if eqFold k "confirmations" then (jsonToInt64 r.confirmations v).map (fun x => { r with confirmations := x })
  else if eqFold k "value" then (jsonToFloat r.value v).map (fun x => { r with value := x })
  else if eqFold k "scriptPubKey" then (jsonToSPK r.scriptPubKey v).map (fun x => { r with scriptPubKey := x })
  else if eqFold k "version" then (jsonToInt32 r.version v).map (fun x => { r with version := x })
  else if eqFold k "coinbase" then (jsonToBool r.coinbase v).map (fun x => { r with coinbase := x })
  else .ok r

/-- Unmarshal a JSON value into a `GetTxOutResult` target (from its zero
value, as for a fresh variable). -/
def jsonToTxOut : Json → Except Err GetTxOutResult
  | .null => .ok zeroTxOut
  | .obj fs => fs.foldlM (fun r kv => txOutField r kv.1 kv.2) zeroTxOut
  | j => .error (.typeMismatch j.kind "GetTxOutResult")

/-- Unmarshal a JSON value into a `*GetTxOutResult` target: `null` yields
the nil pointer, an object allocates and fills a fresh record. -/
def jsonToTxOutPtr : Json → Except Err (Option GetTxOutResult)
  | .null => .ok none
  | j => (jsonToTxOut j).map some

/-- Unmarshal a JSON value into a `map[string]ρ` target given the
value-type's decode rule (`none` is the nil map; entries kept in text
order, a later duplicate key overwriting being observable only through
the fold order retained here). -/
def jsonToStrMap (recUn : Json → Except Err ρ) : Json → Except Err (Option (List (String × ρ)))
  | .null => .ok none
  | .obj fs => (fs.mapM (fun kv => (recUn kv.2).map (fun v => (kv.1, v)))).map some
  | j => .error (.typeMismatch j.kind "map")

/-! ### Top-level `json.Unmarshal` wrappers on raw payload text -/

/-- `json.Unmarshal(res, &s)` for a fresh `string` variable. -/
def unmarshalString (res : String) : Except Err String :=
  match parseJson res with
  | .error e => .error e
  | .ok j => jsonToString "" j

/-- `json.Unmarshal(res, &n)` for a fresh `int64` variable. -/
def unmarshalInt64 (res : String) : Except Err Int :=
  match parseJson res with
  | .error e => .error e
  | .ok j => jsonToInt64 0 j

/-- `json.Unmarshal(res, &x)` for a fresh `float64` variable. -/
def unmarshalFloat (res : String) : Except Err Rat :=
  match parseJson res with
  | .error e => .error e
  | .ok j => jsonToFloat 0 j

/-- `json.Unmarshal(res, &b)` for a fresh `bool` variable. -/
def unmarshalBool (res : String) : Except Err Bool :=
  match parseJson res with
  | .error e => .error e
  | .ok j => jsonToBool false j

/-- `json.Unmarshal(res, &ss)` for a fresh `[]string` variable. -/
def unmarshalStringArray (res : String) : Except Err (Option (List String)) :=
  match parseJson res with
  | .error e => .error e
  | .ok j => jsonToStringArr none j

/-- `json.Unmarshal(res, &p)` for a fresh `*GetTxOutResult` variable. -/
def unmarshalTxOutPtr (res : String) : Except Err (Option GetTxOutResult) :=
  match parseJson res with
  | .error e => .error e
  | .ok j => jsonToTxOutPtr j

/-! ### The dispatch-engine boundary

`chain.go` uses, but does not define, the dispatch engine (`Client`,
`sendCmd`, `response`, `receiveFuture`).  Those pieces are modelled here
from the specification's interface contracts. -/

/-- Modelled from the spec: the content with which a future handle is
eventually filled - either a raw reply payload or a single error from the
dispatch/transport pipeline (spec 4.3, 6: `receive() -> (rawPayload, error)`).
The missing `response` struct of the dispatch engine is embedded as the
resolved value of the one-shot handle. -/
inductive response where
  | ok (result : String)
  | fail (e : Err)
deriving DecidableEq, Repr

/-- Modelled from the spec: `receiveFuture` blocks until the handle is
filled and returns the stored payload/error pair (spec 4.3).  On the
resolved content this is the evident projection. -/
def receiveFuture : response → Except Err String
  | .ok s => .ok s
  | .fail e => .error e

/-- The request objects built by the `btcjson.New*Cmd` constructors used in
`chain.go`, with their ordered parameters (optional pointer parameters as
`Option`). -/
inductive Cmd where
  | getBestBlockHash
  | getBlock (hash : String) (verbose : Option Bool) (verboseTx : Option Bool)
  | getBlockCount
  | getDifficulty
  | getBlockHash (height : Int)
  | getRawMempool (verbose : Option Bool)
  | verifyChain (checkLevel : Option Int) (numBlocks : Option Int)
  | getTxOut (hash : String) (vout : Nat) (includeMempool : Option Bool)
deriving DecidableEq, Repr

/-- Modelled from the spec: a client is, at this boundary, the dispatcher
mapping each constructed request to the handle it returns, with the
handle's eventual content determined by the transport collaborator
(spec 4.1: `dispatch(request) -> FutureHandle`, never blocking). -/
structure Client where
  dispatch : Cmd → response

/-- Modelled from the spec: `sendCmd` hands the request to the dispatcher
and returns the future handle. -/
def Client.sendCmd (c : Client) (cmd : Cmd) : response :=
  c.dispatch cmd

/-- `btcutil.Block`: a wrapper around the deserialized `wire.MsgBlock`
(whose type is the external deserializer's result type `β`). -/
structure Block (β : Type) where
  msgBlock : β
deriving DecidableEq, Repr

/-- `btcutil.NewBlock`. -/
def NewBlock (mb : β) : Block β := ⟨mb⟩

/-! ### Future result types and their `Receive` decode rules (`chain.go`) -/

def FutureGetBestBlockHashResult := response

def FutureGetBlockResult := response

def FutureGetBlockVerboseResult := response

def FutureGetBlockCountResult := response

def FutureGetDifficultyResult := response

def FutureGetBlockHashResult := response

def FutureGetRawMempoolResult := response

def FutureGetRawMempoolVerboseResult := response

def FutureVerifyChainResult := response

def FutureGetTxOutResult := response

/-- `FutureGetBestBlockHashResult.Receive`: unmarshal the payload as a
string and parse it with `chainhash.NewHashFromStr`. -/
def FutureGetBestBlockHashResult.Receive (r : FutureGetBestBlockHashResult) :
    GoPair (Option Hash) :=
  match receiveFuture r with
  | .error e => ⟨none, some e⟩
  | .ok res =>
    match unmarshalString res with
    | .error e => ⟨none, some e⟩
    | .ok txHashStr =>
      match NewHashFromStr txHashStr with
      | .error e => ⟨none, some e⟩
      | .ok h => ⟨some h, none⟩

/-- `FutureGetBlockResult.Receive`: unmarshal the payload as a string,
hex-decode it, deserialize the bytes as a `wire.MsgBlock` (the external
collaborator `deser`, per the spec's decoder-contract boundary), and wrap
the result with `btcutil.NewBlock`. -/
def FutureGetBlockResult.Receive (deser : List Nat → Except Err β)
    (r : FutureGetBlockResult) : GoPair (Option (Block β)) :=
  match receiveFuture r with
  | .error e => ⟨none, some e⟩
  | .ok res =>
    match unmarshalString res with
    | .error e => ⟨none, some e⟩
    | .ok blockHex =>
      match hexDecodeChars blockHex.data with
      | .error e => ⟨none, some e⟩
      | .ok serializedBlock =>
        match deser serializedBlock with
        | .error e => ⟨none, some e⟩
        | .ok msgBlock => ⟨some (NewBlock msgBlock), none⟩

/-- `FutureGetBlockVerboseResult.Receive`: unmarshal the payload into a
`btcjson.GetBlockVerboseResult` and return its address.  The record's
field-wise decode rule is the external collaborator `recUn` (a
`json.Unmarshal` into the record's zero value from the parsed document). -/
def FutureGetBlockVerboseResult.Receive (recUn : Json → Except Err ρ)
    (r : FutureGetBlockVerboseResult) : GoPair (Option ρ) :=
  match receiveFuture r with
  | .error e => ⟨none, some e⟩
  | .ok res =>
    match parseJson res with
    | .error e => ⟨none, some e⟩
    | .ok j =>
      match recUn j with
      | .error e => ⟨none, some e⟩
      | .ok blockResult => ⟨some blockResult, none⟩

/-- `FutureGetBlockCountResult.Receive`: unmarshal the payload as an
`int64`. -/
def FutureGetBlockCountResult.Receive (r : FutureGetBlockCountResult) : GoPair Int :=
  match receiveFuture r with
  | .error e => ⟨0, some e⟩
  | .ok res =>
    match unmarshalInt64 res with
    | .error e => ⟨0, some e⟩
    | .ok count => ⟨count, none⟩

/-- `FutureGetDifficultyResult.Receive`: unmarshal the payload as a
`float64`. -/
def FutureGetDifficultyResult.Receive (r : FutureGetDifficultyResult) : GoPair Rat :=
  match receiveFuture r with
  | .error e => ⟨0, some e⟩
  | .ok res =>
    match unmarshalFloat res with
    | .error e => ⟨0, some e⟩
    | .ok difficulty => ⟨difficulty, none⟩

/-- `FutureGetBlockHashResult.Receive`: unmarshal the payload as a
string-encoded hash. -/
def FutureGetBlockHashResult.Receive (r : FutureGetBlockHashResult) :
    GoPair (Option Hash) :=
  match receiveFuture r with
  | .error e => ⟨none, some e⟩
  | .ok res =>
    match unmarshalString res with
    | .error e => ⟨none, some e⟩
    | .ok txHashStr =>
      match NewHashFromStr txHashStr with
      | .error e => ⟨none, some e⟩
      | .ok h => ⟨some h, none⟩

/-- The element-wise conversion loop of `FutureGetRawMempoolResult.Receive`:
`chainhash.NewHashFromStr` on each string in order, aborting with the first
element's error. -/
def hashLoop : List String → Except Err (List Hash)
  | [] => .ok []
  | s :: rest =>
    match NewHashFromStr s with
    | .error e => .error e
    | .ok h => (hashLoop rest).map (fun t => h :: t)

/-- `FutureGetRawMempoolResult.Receive`: unmarshal the payload as an array
of strings and convert each to a hash with the loop above (`none` is the
nil slice returned on the error paths). -/
def FutureGetRawMempoolResult.Receive (r : FutureGetRawMempoolResult) :
    GoPair (Option (List Hash)) :=
  match receiveFuture r with
  | .error e => ⟨none, some e⟩
  | .ok res =>
    match unmarshalStringArray res with
    | .error e => ⟨none, some e⟩
    | .ok txHashStrs =>
      match hashLoop (txHashStrs.getD []) with
      | .error e => ⟨none, some e⟩
      | .ok txHashes => ⟨some txHashes, none⟩

/-- `FutureGetRawMempoolVerboseResult.Receive`: unmarshal the payload as a
map from transaction-hash strings to detail records, the record decode rule
being the external collaborator `recUn`. -/
def FutureGetRawMempoolVerboseResult.Receive (recUn : Json → Except Err ρ)
    (r : FutureGetRawMempoolVerboseResult) : GoPair (Option (List (String × ρ))) :=
  match receiveFuture r with
  | .error e => ⟨none, some e⟩
  | .ok res =>
    match parseJson res with
    | .error e => ⟨none, some e⟩
    | .ok j =>
      match jsonToStrMap recUn j with
      | .error e => ⟨none, some e⟩
      | .ok mempoolItems => ⟨mempoolItems, none⟩

/-- `FutureVerifyChainResult.Receive`: unmarshal the payload as a
boolean. -/
def FutureVerifyChainResult.Receive (r : FutureVerifyChainResult) : GoPair Bool :=
  match receiveFuture r with
  | .error e => ⟨false, some e⟩
  | .ok res =>
    match unmarshalBool res with
    | .error e => ⟨false, some e⟩
    | .ok verified => ⟨verified, none⟩

/-- `FutureGetTxOutResult.Receive`: if the raw payload is the literal text
`"null"` the output is already spent - return `(nil, nil)`; otherwise
unmarshal the payload into a `*btcjson.GetTxOutResult`. -/
def FutureGetTxOutResult.Receive (r : FutureGetTxOutResult) :
    GoPair (Option GetTxOutResult) :=
  match receiveFuture r with
  | .error e => ⟨none, some e⟩
  | .ok res =>
    if res = "null" then ⟨none, none⟩
    else
      match unmarshalTxOutPtr res with
      | .error e => ⟨none, some e⟩
      | .ok txOutInfo => ⟨txOutInfo, none⟩

/-! ### The `*Async` request constructors and blocking wrappers -/

/-- `Client.GetBestBlockHashAsync`. -/
def Client.GetBestBlockHashAsync (c : Client) : FutureGetBestBlockHashResult :=
  c.sendCmd Cmd.getBestBlockHash

/-- `Client.GetBestBlockHash`. -/
def Client.GetBestBlockHash (c : Client) : GoPair (Option Hash) :=
  FutureGetBestBlockHashResult.Receive (c.GetBestBlockHashAsync)

/-- `Client.GetBlockAsync`: a nil hash pointer becomes the empty string. -/
def Client.GetBlockAsync (c : Client) (blockHash : Option Hash) : FutureGetBlockResult :=
  let hash := match blockHash with
    | none => ""
    | some h => hashToStr h
  c.sendCmd (Cmd.getBlock hash (some false) none)

/-- `Client.GetBlock`. -/
def Client.GetBlock (c : Client) (deser : List Nat → Except Err β)
    (blockHash : Option Hash) : GoPair (Option (Block β)) :=
  FutureGetBlockResult.Receive deser (c.GetBlockAsync blockHash)

/-- `Client.GetBlockVerboseAsync`: a nil hash pointer becomes the empty
string. -/
def Client.GetBlockVerboseAsync (c : Client) (blockHash : Option Hash)
    (verboseTx : Bool) : FutureGetBlockVerboseResult :=
  let hash := match blockHash with
    | none => ""
    | some h => hashToStr h
  c.sendCmd (Cmd.getBlock hash (some true) (some verboseTx))

/-- `Client.GetBlockVerbose`. -/
def Client.GetBlockVerbose (c : Client) (recUn : Json → Except Err ρ)
    (blockHash : Option Hash) (verboseTx : Bool) : GoPair (Option ρ) :=
  FutureGetBlockVerboseResult.Receive recUn (c.GetBlockVerboseAsync blockHash verboseTx)

/-- `Client.GetBlockCountAsync`. -/
def Client.GetBlockCountAsync (c : Client) : FutureGetBlockCountResult :=
  c.sendCmd Cmd.getBlockCount

/-- `Client.GetBlockCount`. -/
def Client.GetBlockCount (c : Client) : GoPair Int :=
  FutureGetBlockCountResult.Receive (c.GetBlockCountAsync)

/-- `Client.GetDifficultyAsync`. -/
def Client.GetDifficultyAsync (c : Client) : FutureGetDifficultyResult :=
  c.sendCmd Cmd.getDifficulty

/-- `Client.GetDifficulty`. -/
def Client.GetDifficulty (c : Client) : GoPair Rat :=
  FutureGetDifficultyResult.Receive (c.GetDifficultyAsync)

/-- `Client.GetBlockHashAsync`. -/
def Client.GetBlockHashAsync (c : Client) (blockHeight : Int) : FutureGetBlockHashResult :=
  c.sendCmd (Cmd.getBlockHash blockHeight)

/-- `Client.GetBlockHash`. -/
def Client.GetBlockHash (c : Client) (blockHeight : Int) : GoPair (Option Hash) :=
  FutureGetBlockHashResult.Receive (c.GetBlockHashAsync blockHeight)

/-- `Client.GetRawMempoolAsync`. -/
def Client.GetRawMempoolAsync (c : Client) : FutureGetRawMempoolResult :=
  c.sendCmd (Cmd.getRawMempool (some false))

/-- `Client.GetRawMempool`. -/
def Client.GetRawMempool (c : Client) : GoPair (Option (List Hash)) :=
  FutureGetRawMempoolResult.Receive (c.GetRawMempoolAsync)

/-- `Client.GetRawMempoolVerboseAsync`. -/
def Client.GetRawMempoolVerboseAsync (c : Client) : FutureGetRawMempoolVerboseResult :=
  c.sendCmd (Cmd.getRawMempool (some true))

/-- `Client.GetRawMempoolVerbose`. -/
def Client.GetRawMempoolVerbose (c : Client) (recUn : Json → Except Err ρ) :
    GoPair (Option (List (String × ρ))) :=
  FutureGetRawMempoolVerboseResult.Receive recUn (c.GetRawMempoolVerboseAsync)

/-- `Client.VerifyChainAsync`. -/
def Client.VerifyChainAsync (c : Client) : FutureVerifyChainResult :=
  c.sendCmd (Cmd.verifyChain none none)

/-- `Client.VerifyChain`. -/
def Client.VerifyChain (c : Client) : GoPair Bool :=
  FutureVerifyChainResult.Receive (c.VerifyChainAsync)

/-- `Client.VerifyChainLevelAsync`. -/
def Client.VerifyChainLevelAsync (c : Client) (checkLevel : Int) : FutureVerifyChainResult :=
  c.sendCmd (Cmd.verifyChain (some checkLevel) none)

/-- `Client.VerifyChainLevel`. -/
def Client.VerifyChainLevel (c : Client) (checkLevel : Int) : GoPair Bool :=
  FutureVerifyChainResult.Receive (c.VerifyChainLevelAsync checkLevel)

/-- `Client.VerifyChainBlocksAsync`. -/
def Client.VerifyChainBlocksAsync (c : Client) (checkLevel numBlocks : Int) :
    FutureVerifyChainResult :=
  c.sendCmd (Cmd.verifyChain (some checkLevel) (some numBlocks))

/-- `Client.VerifyChainBlocks`. -/
def Client.VerifyChainBlocks (c : Client) (checkLevel numBlocks : Int) : GoPair Bool :=
  FutureVerifyChainResult.Receive (c.VerifyChainBlocksAsync checkLevel numBlocks)

/-- `Client.GetTxOutAsync`: a nil hash pointer becomes the empty string. -/
def Client.GetTxOutAsync (c : Client) (txHash : Option Hash) (index : Nat)
    (mempool : Bool) : FutureGetTxOutResult :=
  let hash := match txHash with
    | none => ""
    | some h => hashToStr h
  c.sendCmd (Cmd.getTxOut hash index (some mempool))

/-- `Client.GetTxOut`. -/
def Client.GetTxOut (c : Client) (txHash : Option Hash) (index : Nat)
    (mempool : Bool) : GoPair (Option GetTxOutResult) :=
  FutureGetTxOutResult.Receive (c.GetTxOutAsync txHash index mempool)

/-! ### The shutdown sweep of the completion router

Modelled from the spec (4.2, 5): the dispatch engine itself is outside the
visible source; its pending table maps correlation ids to one-shot
handles, a handle being either still pending or filled with its
response. -/

/-- Modelled from the spec: a future handle's state - `none` while
pending, `some r` once filled with its response. -/
abbrev Handle := Option response

/-- Modelled from the spec: the pending table, keyed by correlation id. -/
abbrev PendingTable := List (Nat × Handle)

/-- Modelled from the spec: a blocking `receive` observed from outside -
it returns the stored pair once the handle is filled and cannot return
while the handle is pending (`none` here standing for "still blocked"). -/
def handleReceive : Handle → Option (Except Err String)
  | none => none
  | some r => some (receiveFuture r)

/-- Modelled from the spec: on connection-level teardown the completion
router resolves every entry of the pending table with a connection-closed
error (spec 4.2: "every currently pending entry must be resolved with a
connection error so no caller can block indefinitely"). -/
def shutdownSweep (t : PendingTable) : PendingTable :=
  t.map (fun ent => (ent.1, some (response.fail Err.connClosed)))

/-! ### Helper lemmas -/

/-- `true` exactly on `Except.ok`. -/
def exOk : Except Err α → Bool
  | .ok _ => true
  | .error _ => false

theorem hexDecodeChars_err_isFormat (cs : List Char) (e : Err)
    (h : hexDecodeChars cs = .error e) : e.isFormat = true := by
  induction cs using hexDecodeChars.induct with
  | case1 => simp [hexDecodeChars] at h
  | case2 c hc =>
    simp [hexDecodeChars, hc] at h
    simp [← h, Err.isFormat]
  | case3 c v hc =>
    simp [hexDecodeChars, hc] at h
    simp [← h, Err.isFormat]
  | case4 a b rest ha =>
    simp [hexDecodeChars, ha] at h
    simp [← h, Err.isFormat]
  | case5 a b rest v ha hb =>
    simp [hexDecodeChars, ha, hb] at h
    simp [← h, Err.isFormat]
  | case6 a b rest v ha w hb ih =>
    simp only [hexDecodeChars, ha, hb] at h
    rcases hr : hexDecodeChars rest with e2 | bs <;> rw [hr] at h <;>
      simp [Except.map] at h
    exact ih (h ▸ hr)

theorem hexDecodeChars_ok_all_valid (cs : List Char) (bs : List Nat)
    (h : hexDecodeChars cs = .ok bs) : ∀ c ∈ cs, (hexVal c).isSome = true := by
  induction cs using hexDecodeChars.induct generalizing bs with
  | case1 => intro c hc; exact absurd hc (List.not_mem_nil c)
  | case2 c hc => simp [hexDecodeChars, hc] at h
  | case3 c v hc => simp [hexDecodeChars, hc] at h
  | case4 a b rest ha => simp [hexDecodeChars, ha] at h
  | case5 a b rest v ha hb => simp [hexDecodeChars, ha, hb] at h
  | case6 a b rest v ha w hb ih =>
    simp only [hexDecodeChars, ha, hb] at h
    rcases hr : hexDecodeChars rest with e2 | bs2 <;> rw [hr] at h <;>
      simp [Except.map] at h
    intro c hc
    simp only [List.mem_cons] at hc
    rcases hc with hc1 | hc1 | hc1
    · subst hc1; simp [ha]
    · subst hc1; simp [hb]
    · exact ih bs2 hr c hc1

theorem newHashFromStr_fails (s : String)
    (hbad : MaxHashStringSize < s.length ∨ ∃ c ∈ s.data, hexVal c = none) :
    ∃ e, NewHashFromStr s = .error e ∧ e.isFormat = true := by
  by_cases hlen : MaxHashStringSize < s.length
  · exact ⟨.hashStrSize, by simp [NewHashFromStr, hlen], rfl⟩
  · rcases hbad with hbad | ⟨c, hc, hcv⟩
    · exact absurd hbad hlen
    · have hmem : c ∈ (if s.length % 2 = 0 then s.data else '0' :: s.data) := by
        by_cases hpar : s.length % 2 = 0
        · simpa [hpar] using hc
        · simp only [if_neg hpar]
          exact List.mem_cons_of_mem _ hc
      rcases hd : hexDecodeChars (if s.length % 2 = 0 then s.data else '0' :: s.data) with e | bs
      · refine ⟨e, ?_, hexDecodeChars_err_isFormat _ _ hd⟩
        simp [NewHashFromStr, hlen, hd]
      · have := hexDecodeChars_ok_all_valid _ _ hd c hmem
        rw [hcv] at this
        simp at this

theorem hashLoop_ok (ss : List String) (hall : ∀ s ∈ ss, exOk (NewHashFromStr s) = true) :
    ∃ hs, hashLoop ss = .ok hs ∧ hs.length = ss.length ∧
      ∀ i (hi : i < ss.length) (hi2 : i < hs.length),
        NewHashFromStr (ss.get ⟨i, hi⟩) = .ok (hs.get ⟨i, hi2⟩) := by
  induction ss with
  | nil => exact ⟨[], rfl, rfl, fun i hi _ => absurd hi (Nat.not_lt_zero i)⟩
  | cons s rest ih =>
    have hs0 := hall s (List.mem_cons_self s rest)
    rcases hok : NewHashFromStr s with e | h
    · rw [hok] at hs0; simp [exOk] at hs0
    · obtain ⟨hs, hloop, hlen, hidx⟩ := ih (fun x hx => hall x (List.mem_cons_of_mem s hx))
      refine ⟨h :: hs, ?_, by simp [hlen], ?_⟩
      · simp [hashLoop, hok, hloop, Except.map]
      · intro i hi hi2
        cases i with
        | zero => simpa using hok
        | succ n =>
          simpa using hidx n (by simpa using hi) (by simpa using hi2)

theorem hashLoop_err (ss : List String) (i : Nat) (hi : i < ss.length) (e : Err)
    (herr : NewHashFromStr (ss.get ⟨i, hi⟩) = .error e)
    (hprev : ∀ j (hj : j < i), exOk (NewHashFromStr (ss.get ⟨j, Nat.lt_trans hj hi⟩)) = true) :
    hashLoop ss = .error e := by
  induction ss generalizing i with
  | nil => exact absurd hi (Nat.not_lt_zero i)
  | cons s rest ih =>
    cases i with
    | zero =>
      have herr0 : NewHashFromStr s = .error e := herr
      simp [hashLoop, herr0]
    | succ n =>
      have h0 : exOk (NewHashFromStr s) = true := by
        simpa using hprev 0 (Nat.succ_pos n)
      rcases hok : NewHashFromStr s with e0 | h
      · rw [hok] at h0; simp [exOk] at h0
      · have hn : n < rest.length := by simpa using hi
        have hrec := ih n hn (by simpa using herr)
          (fun j hj => by simpa using hprev (j + 1) (Nat.succ_lt_succ hj))
        simp [hashLoop, hok, hrec, Except.map]

theorem getTxOut_parse_error (raw : String) (e : Err) (hp : parseJson raw = .error e) :
    FutureGetTxOutResult.Receive (response.ok raw) = ⟨none, some e⟩ := by
  by_cases hnull : raw = "null"
  · subst hnull
    rw [show parseJson "null" = .ok Json.null from rfl] at hp
    exact Except.noConfusion hp
  · simp only [FutureGetTxOutResult.Receive, receiveFuture]
    rw [if_neg hnull]
    simp [unmarshalTxOutPtr, hp]

theorem noPartial_bestBlockHash (r : response) :
    (FutureGetBestBlockHashResult.Receive r).err.isSome = true →
    (FutureGetBestBlockHashResult.Receive r).val = none := by
  cases r with
  | fail e => intro _; rfl
  | ok res =>
    rcases hu : unmarshalString res with e | s
    · simp [FutureGetBestBlockHashResult.Receive, receiveFuture, hu]
    · rcases hh : NewHashFromStr s with e | h <;>
        simp [FutureGetBestBlockHashResult.Receive, receiveFuture, hu, hh]

theorem noPartial_block (deser : List Nat → Except Err β) (r : response) :
    (FutureGetBlockResult.Receive deser r).err.isSome = true →
    (FutureGetBlockResult.Receive deser r).val = none := by
  cases r with
  | fail e => intro _; rfl
  | ok res =>
    rcases hu : unmarshalString res with e | s
    · simp [FutureGetBlockResult.Receive, receiveFuture, hu]
    · rcases hx : hexDecodeChars s.data with e | bs
      · simp [FutureGetBlockResult.Receive, receiveFuture, hu, hx]
      · rcases hd : deser bs with e | mb <;>
          simp [FutureGetBlockResult.Receive, receiveFuture, hu, hx, hd]

theorem noPartial_blockVerbose (recUn : Json → Except Err ρ) (r : response) :
    (FutureGetBlockVerboseResult.Receive recUn r).err.isSome = true →
    (FutureGetBlockVerboseResult.Receive recUn r).val = none := by
  cases r with
  | fail e => intro _; rfl
  | ok res =>
    rcases hp : parseJson res with e | j
    · simp [FutureGetBlockVerboseResult.Receive, receiveFuture, hp]
    · rcases hr : recUn j with e | v <;>
        simp [FutureGetBlockVerboseResult.Receive, receiveFuture, hp, hr]

theorem noPartial_blockCount (r : response) :
    (FutureGetBlockCountResult.Receive r).err.isSome = true →
    (FutureGetBlockCountResult.Receive r).val = 0 := by
  cases r with
  | fail e => intro _; rfl
  | ok res =>
    rcases hu : unmarshalInt64 res with e | n <;>
      simp [FutureGetBlockCountResult.Receive, receiveFuture, hu]

theorem noPartial_difficulty (r : response) :
    (FutureGetDifficultyResult.Receive r).err.isSome = true →
    (FutureGetDifficultyResult.Receive r).val = 0 := by
  cases r with
  | fail e => intro _; rfl
  | ok res =>
    rcases hu : unmarshalFloat res with e | x <;>
      simp [FutureGetDifficultyResult.Receive, receiveFuture, hu]

theorem noPartial_blockHash (r : response) :
    (FutureGetBlockHashResult.Receive r).err.isSome = true →
    (FutureGetBlockHashResult.Receive r).val = none := by
  cases r with
  | fail e => intro _; rfl
  | ok res =>
    rcases hu : unmarshalString res with e | s
    · simp [FutureGetBlockHashResult.Receive, receiveFuture, hu]
    · rcases hh : NewHashFromStr s with e | h <;>
        simp [FutureGetBlockHashResult.Receive, receiveFuture, hu, hh]

theorem noPartial_rawMempool (r : response) :
    (FutureGetRawMempoolResult.Receive r).err.isSome = true →
    (FutureGetRawMempoolResult.Receive r).val = none := by
  cases r with
  | fail e => intro _; rfl
  | ok res =>
    rcases hu : unmarshalStringArray res with e | os
    · simp [FutureGetRawMempoolResult.Receive, receiveFuture, hu]
    · rcases hl : hashLoop (os.getD []) with e | hs <;>
        simp [FutureGetRawMempoolResult.Receive, receiveFuture, hu, hl]

theorem noPartial_rawMempoolVerbose (recUn : Json → Except Err ρ) (r : response) :
    (FutureGetRawMempoolVerboseResult.Receive recUn r).err.isSome = true →
    (FutureGetRawMempoolVerboseResult.Receive recUn r).val = none := by
  cases r with
  | fail e => intro _; rfl
  | ok res =>
    rcases hp : parseJson res with e | j
    · simp [FutureGetRawMempoolVerboseResult.Receive, receiveFuture, hp]
    · rcases hm : jsonToStrMap recUn j with e | om <;>
        simp [FutureGetRawMempoolVerboseResult.Receive, receiveFuture, hp, hm]

theorem noPartial_verifyChain (r : response) :
    (FutureVerifyChainResult.Receive r).err.isSome = true →
    (FutureVerifyChainResult.Receive r).val = false := by
  cases r with
  | fail e => intro _; rfl
  | ok res =>
    rcases hu : unmarshalBool res with e | b <;>
      simp [FutureVerifyChainResult.Receive, receiveFuture, hu]

theorem noPartial_txOut (r : response) :
    (FutureGetTxOutResult.Receive r).err.isSome = true →
    (FutureGetTxOutResult.Receive r).val = none := by
  cases r with
  | fail e => intro _; rfl
  | ok res =>
    by_cases hnull : res = "null"
    · simp [FutureGetTxOutResult.Receive, receiveFuture, hnull]
    · rcases hu : unmarshalTxOutPtr res with e | v <;>
        simp [FutureGetTxOutResult.Receive, receiveFuture, hnull, hu]

/-! ### Claim theorems -/

/-- C1: for the unspent-output lookup, a raw reply that is exactly the
literal text `null` decodes to `(absent, no error)`; a malformed reply
(one the JSON syntax layer rejects) instead yields that error with no
result. -/
theorem getTxOut_null_sentinel :
    FutureGetTxOutResult.Receive (response.ok "null") = ⟨none, none⟩ ∧
    ∀ raw e, parseJson raw = .error e →
      FutureGetTxOutResult.Receive (response.ok raw) = ⟨none, some e⟩ :=
  ⟨rfl, getTxOut_parse_error⟩

/-- C1 witness: the malformed reply consisting of a lone opening bracket
yields a syntax error and no result. -/
theorem getTxOut_null_sentinel_witness :
    FutureGetTxOutResult.Receive (response.ok "\x7b") =
      ⟨none, some (Err.malformed "unexpected end of JSON input")⟩ :=
  getTxOut_null_sentinel.2 "\x7b" (Err.malformed "unexpected end of JSON input") rfl

/-- C6: every blocking operation returns exactly what its `*Async`
counterpart's handle yields under `Receive`. -/
theorem blocking_eq_async_receive (c : Client) (β ρ : Type)
    (deser : List Nat → Except Err β) (recUn : Json → Except Err ρ)
    (blockHash txHash : Option Hash) (verboseTx mempool : Bool)
    (blockHeight checkLevel numBlocks : Int) (index : Nat) :
    c.GetBestBlockHash = FutureGetBestBlockHashResult.Receive (c.GetBestBlockHashAsync)
  ∧ c.GetBlock deser blockHash = FutureGetBlockResult.Receive deser (c.GetBlockAsync blockHash)
  ∧ c.GetBlockVerbose recUn blockHash verboseTx =
      FutureGetBlockVerboseResult.Receive recUn (c.GetBlockVerboseAsync blockHash verboseTx)
  ∧ c.GetBlockCount = FutureGetBlockCountResult.Receive (c.GetBlockCountAsync)
  ∧ c.GetDifficulty = FutureGetDifficultyResult.Receive (c.GetDifficultyAsync)
  ∧ c.GetBlockHash blockHeight = FutureGetBlockHashResult.Receive (c.GetBlockHashAsync blockHeight)
  ∧ c.GetRawMempool = FutureGetRawMempoolResult.Receive (c.GetRawMempoolAsync)
  ∧ c.GetRawMempoolVerbose recUn =
      FutureGetRawMempoolVerboseResult.Receive recUn (c.GetRawMempoolVerboseAsync)
  ∧ c.VerifyChain = FutureVerifyChainResult.Receive (c.VerifyChainAsync)
  ∧ c.VerifyChainLevel checkLevel = FutureVerifyChainResult.Receive (c.VerifyChainLevelAsync checkLevel)
  ∧ c.VerifyChainBlocks checkLevel numBlocks =
      FutureVerifyChainResult.Receive (c.VerifyChainBlocksAsync checkLevel numBlocks)
  ∧ c.GetTxOut txHash index mempool =
      FutureGetTxOutResult.Receive (c.GetTxOutAsync txHash index mempool) :=
  ⟨rfl, rfl, rfl, rfl, rfl, rfl, rfl, rfl, rfl, rfl, rfl, rfl⟩

/-- C10: the three hash-pointer operations build their request with the
empty string when the hash is nil, and return the dispatcher's handle
normally. -/
theorem nilHash_uses_empty_string (c : Client) (index : Nat) (verboseTx mempool : Bool) :
    c.GetBlockAsync none = c.sendCmd (Cmd.getBlock "" (some false) none)
  ∧ c.GetBlockVerboseAsync none verboseTx = c.sendCmd (Cmd.getBlock "" (some true) (some verboseTx))
  ∧ c.GetTxOutAsync none index mempool = c.sendCmd (Cmd.getTxOut "" index (some mempool)) :=
  ⟨rfl, rfl, rfl⟩

/-- C9: the shutdown sweep of the completion router resolves every entry
of the pending table with the connection-closed error, so a receive on any
swept handle returns (with that error) instead of staying blocked. -/
theorem shutdown_resolves_all (t : PendingTable) :
    (shutdownSweep t).length = t.length ∧
    ∀ ent ∈ shutdownSweep t, handleReceive ent.2 = some (.error Err.connClosed) := by
  constructor
  · exact List.length_map t _
  · intro ent hent
    simp only [shutdownSweep, List.mem_map] at hent
    obtain ⟨a, _, rfl⟩ := hent
    rfl

/-- C9 witness: a two-entry pending table, fully resolved by the sweep. -/
theorem shutdown_resolves_all_witness :
    handleReceive (some (response.fail Err.connClosed)) = some (.error Err.connClosed) :=
  (shutdown_resolves_all [(1, (none : Handle)), (2, none)]).2
    (1, some (response.fail Err.connClosed)) (by decide)

/-- C2: on every resolved handle content, each `Receive` returns either a
result with no error or the zero value with the pipeline's error - never a
nonzero result alongside an error. -/
theorem receive_all_or_nothing (r : response) (β ρ : Type)
    (deser : List Nat → Except Err β) (recUn : Json → Except Err ρ) :
    ((FutureGetBestBlockHashResult.Receive r).err.isSome = true →
      (FutureGetBestBlockHashResult.Receive r).val = none)
  ∧ ((FutureGetBlockResult.Receive deser r).err.isSome = true →
      (FutureGetBlockResult.Receive deser r).val = none)
  ∧ ((FutureGetBlockVerboseResult.Receive recUn r).err.isSome = true →
      (FutureGetBlockVerboseResult.Receive recUn r).val = none)
  ∧ ((FutureGetBlockCountResult.Receive r).err.isSome = true →
      (FutureGetBlockCountResult.Receive r).val = 0)
  ∧ ((FutureGetDifficultyResult.Receive r).err.isSome = true →
      (FutureGetDifficultyResult.Receive r).val = 0)
  ∧ ((FutureGetBlockHashResult.Receive r).err.isSome = true →
      (FutureGetBlockHashResult.Receive r).val = none)
  ∧ ((FutureGetRawMempoolResult.Receive r).err.isSome = true →
      (FutureGetRawMempoolResult.Receive r).val = none)
  ∧ ((FutureGetRawMempoolVerboseResult.Receive recUn r).err.isSome = true →
      (FutureGetRawMempoolVerboseResult.Receive recUn r).val = none)
  ∧ ((FutureVerifyChainResult.Receive r).err.isSome = true →
      (FutureVerifyChainResult.Receive r).val = false)
  ∧ ((FutureGetTxOutResult.Receive r).err.isSome = true →
      (FutureGetTxOutResult.Receive r).val = none) :=
  ⟨noPartial_bestBlockHash r, noPartial_block deser r, noPartial_blockVerbose recUn r,
   noPartial_blockCount r, noPartial_difficulty r, noPartial_blockHash r,
   noPartial_rawMempool r, noPartial_rawMempoolVerbose recUn r,
   noPartial_verifyChain r, noPartial_txOut r⟩

/-- C2 witness: a handle resolved with a transport error yields the zero
result for the best-block-hash operation. -/
theorem receive_all_or_nothing_witness :
    (FutureGetBestBlockHashResult.Receive (response.fail (Err.rpcErr "connection lost"))).val = none :=
  (receive_all_or_nothing (response.fail (Err.rpcErr "connection lost")) Unit Unit
    (fun _ => .error (Err.deserErr "x")) (fun _ => .error (Err.deserErr "x"))).1 (by decide)

/-- C5 counterexample: a raw reply of an empty JSON object does NOT yield a
DecodeError - `json.Unmarshal` does not enforce required fields, so the
decode succeeds with a zero-valued record and no error. -/
theorem getTxOut_empty_object_counterexample :
    FutureGetTxOutResult.Receive (response.ok "\x7b\x7d") = ⟨some zeroTxOut, none⟩ ∧
    (FutureGetTxOutResult.Receive (response.ok "\x7b\x7d")).err = none :=
  ⟨rfl, rfl⟩

/-- C5 (amended): a raw reply of `\x7b\x7d` (an object missing every
required field) does not yield a DecodeError: it decodes successfully to
the zero-valued record with no error, `json.Unmarshal` not detecting
missing fields; a raw reply of the literal text `null` yields
`(absent, no error)`. -/
theorem getTxOut_empty_object_amended :
    FutureGetTxOutResult.Receive (response.ok "\x7b\x7d") = ⟨some zeroTxOut, none⟩ ∧
    FutureGetTxOutResult.Receive (response.ok "null") = ⟨none, none⟩ :=
  ⟨rfl, rfl⟩

/-- C3: the list-of-hashes decode is element-wise in order: on a payload
unmarshaling to the string list `ss`, if every element parses the result is
a list of the same length whose i-th hash is the decode of the i-th string;
if some element fails, the whole receive fails with the error of the first
invalid element and no partial list. -/
theorem rawMempool_elementwise (raw : String) (ss : List String)
    (hp : unmarshalStringArray raw = .ok (some ss)) :
    ((∀ s ∈ ss, exOk (NewHashFromStr s) = true) →
      ∃ hs, FutureGetRawMempoolResult.Receive (response.ok raw) = ⟨some hs, none⟩ ∧
        hs.length = ss.length ∧
        ∀ i (hi : i < ss.length) (hi2 : i < hs.length),
          NewHashFromStr (ss.get ⟨i, hi⟩) = .ok (hs.get ⟨i, hi2⟩))
  ∧ (∀ i (hi : i < ss.length) (e : Err),
      NewHashFromStr (ss.get ⟨i, hi⟩) = .error e →
      (∀ j (hj : j < i), exOk (NewHashFromStr (ss.get ⟨j, Nat.lt_trans hj hi⟩)) = true) →
      FutureGetRawMempoolResult.Receive (response.ok raw) = ⟨none, some e⟩) := by
  constructor
  · intro hall
    obtain ⟨hs, hloop, hlen, hidx⟩ := hashLoop_ok ss hall
    exact ⟨hs, by simp [FutureGetRawMempoolResult.Receive, receiveFuture, hp, hloop], hlen, hidx⟩
  · intro i hi e herr hprev
    have hloop := hashLoop_err ss i hi e herr hprev
    simp [FutureGetRawMempoolResult.Receive, receiveFuture, hp, hloop]

/-- C3 witness: a payload whose second element is malformed fails with that
element's error and no partial list. -/
theorem rawMempool_elementwise_witness :
    FutureGetRawMempoolResult.Receive (response.ok "[\"00\",\"zz\"]") =
      ⟨none, some (Err.hexInvalidByte 'z')⟩ := by
  have hi : 1 < (["00", "zz"] : List String).length := by decide
  refine (rawMempool_elementwise "[\"00\",\"zz\"]" ["00", "zz"] rfl).2 1 hi
    (Err.hexInvalidByte 'z') ?_ ?_
  · have h1 : (["00", "zz"] : List String).get ⟨1, hi⟩ = "zz" := by simp
    rw [h1]
    exact rfl
  · intro j hj
    have hj0 : j = 0 := Nat.lt_one_iff.mp hj
    subst hj0
    have h0 : (["00", "zz"] : List String).get ⟨0, Nat.lt_trans hj hi⟩ = "00" := by simp
    rw [h0]
    exact rfl

/-- C4: the best-block-hash reply `"00000000000000000aab"` (valid hex,
within the accepted length) decodes with no error to the hash whose value
is that hex string (stored byte-reversed with leading-zero padding, so its
bytes are `ab 0a 00 ...`); the reply `"zz"` fails with a FormatError; and in
general the string-to-hash decode fails with a FormatError whenever the
string exceeds the accepted length or contains a non-hex character. -/
theorem bestBlockHash_hex_decode :
    FutureGetBestBlockHashResult.Receive (response.ok "\"00000000000000000aab\"") =
      ⟨some (171 :: 10 :: List.replicate 30 0), none⟩
  ∧ (FutureGetBestBlockHashResult.Receive (response.ok "\"zz\"") =
      ⟨none, some (Err.hexInvalidByte 'z')⟩ ∧ (Err.hexInvalidByte 'z').isFormat = true)
  ∧ ∀ s : String, (MaxHashStringSize < s.length ∨ ∃ c ∈ s.data, hexVal c = none) →
      ∃ e, NewHashFromStr s = .error e ∧ e.isFormat = true :=
  ⟨rfl, ⟨rfl, rfl⟩, newHashFromStr_fails⟩

/-- C4 witness: the general failure rule applied to the non-hex string
`"zz"`. -/
theorem bestBlockHash_hex_decode_witness :
    ∃ e, NewHashFromStr "zz" = .error e ∧ e.isFormat = true :=
  bestBlockHash_hex_decode.2.2 "zz" (Or.inr ⟨'z', by decide, rfl⟩)

/-- C7: the raw-block decode proceeds in stages - unmarshal the payload as
a string, hex-decode it, deserialize the bytes with the external block
decoder - failing with the stage's error and no block if any stage fails
(the hex stage's errors being format errors), and returning the block
built from the deserialized bytes on success. -/
theorem getBlock_staged_decode (β : Type) (deser : List Nat → Except Err β) (raw : String) :
    (∀ e, FutureGetBlockResult.Receive deser (response.fail e) = ⟨none, some e⟩)
  ∧ (∀ e, unmarshalString raw = .error e →
      FutureGetBlockResult.Receive deser (response.ok raw) = ⟨none, some e⟩)
  ∧ (∀ s e, unmarshalString raw = .ok s → hexDecodeChars s.data = .error e →
      FutureGetBlockResult.Receive deser (response.ok raw) = ⟨none, some e⟩ ∧ e.isFormat = true)
  ∧ (∀ s bs e, unmarshalString raw = .ok s → hexDecodeChars s.data = .ok bs →
      deser bs = .error e →
      FutureGetBlockResult.Receive deser (response.ok raw) = ⟨none, some e⟩)
  ∧ (∀ s bs mb, unmarshalString raw = .ok s → hexDecodeChars s.data = .ok bs →
      deser bs = .ok mb →
      FutureGetBlockResult.Receive deser (response.ok raw) = ⟨some (NewBlock mb), none⟩) := by
  refine ⟨fun e => rfl, ?_, ?_, ?_, ?_⟩
  · intro e hu
    simp [FutureGetBlockResult.Receive, receiveFuture, hu]
  · intro s e hu hx
    exact ⟨by simp [FutureGetBlockResult.Receive, receiveFuture, hu, hx],
      hexDecodeChars_err_isFormat _ _ hx⟩
  · intro s bs e hu hx hd
    simp [FutureGetBlockResult.Receive, receiveFuture, hu, hx, hd]
  · intro s bs mb hu hx hd
    simp [FutureGetBlockResult.Receive, receiveFuture, hu, hx, hd]

/-- C7 witness: with a deserializer that accepts the bytes `0a`, the reply
`"0a"` decodes to the block wrapping the deserializer's result. -/
theorem getBlock_staged_decode_witness :
    FutureGetBlockResult.Receive
      (fun bs => if bs = [] then .error (Err.deserErr "empty block") else .ok bs)
      (response.ok "\"0a\"") = ⟨some (NewBlock [10]), none⟩ :=
  (getBlock_staged_decode (List Nat)
      (fun bs => if bs = [] then .error (Err.deserErr "empty block") else .ok bs)
      "\"0a\"").2.2.2.2 "0a" [10] [10] rfl rfl rfl

theorem jsonToInt64_typeErr (j : Json) (hnum : j.isNum = false) (hnull : j.isNull = false) :
    jsonToInt64 0 j = .error (.typeMismatch j.kind "int64") := by
  cases j <;> simp_all [Json.isNum, Json.isNull, jsonToInt64, Json.kind]

theorem jsonToFloat_typeErr (j : Json) (hnum : j.isNum = false) (hnull : j.isNull = false) :
    jsonToFloat 0 j = .error (.typeMismatch j.kind "float64") := by
  cases j <;> simp_all [Json.isNum, Json.isNull, jsonToFloat, Json.kind]

theorem jsonToBool_typeErr (j : Json) (hbool : j.isBool = false) (hnull : j.isNull = false) :
    jsonToBool false j = .error (.typeMismatch j.kind "bool") := by
  cases j <;> simp_all [Json.isBool, Json.isNull, jsonToBool, Json.kind]

theorem errIsDecode_typeMismatch (v t : String) : (Err.typeMismatch v t).isDecode = true := rfl

/-- C8 counterexample: the payload `null` is not a number, yet the
block-count decode returns the zero value with NO error (Go's unmarshal
treats JSON `null` as a no-op), contradicting "a payload whose type does
not match fails with a DecodeError"; likewise for the boolean decode. -/
theorem scalar_null_counterexample :
    parseJson "null" = .ok Json.null ∧ Json.isNum Json.null = false ∧
    FutureGetBlockCountResult.Receive (response.ok "null") = ⟨0, none⟩ ∧
    FutureVerifyChainResult.Receive (response.ok "null") = ⟨false, none⟩ :=
  ⟨rfl, rfl, rfl, rfl⟩

/-- C8 (amended): the scalar decoders decode the payload directly into the
scalar type; a payload whose JSON type does not match and is not `null`
fails with a DecodeError and the zero value; a `null` payload decodes to
the zero value with no error. -/
theorem scalar_decode_amended (raw : String) (j : Json) (hp : parseJson raw = .ok j) :
    (j.isNum = false → j.isNull = false →
      ∃ e, FutureGetBlockCountResult.Receive (response.ok raw) = ⟨0, some e⟩ ∧ e.isDecode = true)
  ∧ (j.isNum = false → j.isNull = false →
      ∃ e, FutureGetDifficultyResult.Receive (response.ok raw) = ⟨0, some e⟩ ∧ e.isDecode = true)
  ∧ (j.isBool = false → j.isNull = false →
      ∃ e, FutureVerifyChainResult.Receive (response.ok raw) = ⟨false, some e⟩ ∧ e.isDecode = true)
  ∧ (j.isNull = true →
      FutureGetBlockCountResult.Receive (response.ok raw) = ⟨0, none⟩ ∧
      FutureGetDifficultyResult.Receive (response.ok raw) = ⟨0, none⟩ ∧
      FutureVerifyChainResult.Receive (response.ok raw) = ⟨false, none⟩)
  ∧ (∀ l v, j = Json.num l → NumLit.intVal? l = some v →
      FutureGetBlockCountResult.Receive (response.ok raw) = ⟨v, none⟩)
  ∧ (∀ b, j = Json.bool b →
      FutureVerifyChainResult.Receive (response.ok raw) = ⟨b, none⟩) := by
  refine ⟨?_, ?_, ?_, ?_, ?_, ?_⟩
  · intro hnum hnull
    exact ⟨Err.typeMismatch j.kind "int64",
      by simp [FutureGetBlockCountResult.Receive, receiveFuture, unmarshalInt64, hp,
        jsonToInt64_typeErr j hnum hnull],
      errIsDecode_typeMismatch _ _⟩
  · intro hnum hnull
    exact ⟨Err.typeMismatch j.kind "float64",
      by simp [FutureGetDifficultyResult.Receive, receiveFuture, unmarshalFloat, hp,
        jsonToFloat_typeErr j hnum hnull],
      errIsDecode_typeMismatch _ _⟩
  · intro hbool hnull
    exact ⟨Err.typeMismatch j.kind "bool",
      by simp [FutureVerifyChainResult.Receive, receiveFuture, unmarshalBool, hp,
        jsonToBool_typeErr j hbool hnull],
      errIsDecode_typeMismatch _ _⟩
  · intro hnull
    cases j <;> simp [Json.isNull] at hnull
    exact ⟨by simp [FutureGetBlockCountResult.Receive, receiveFuture, unmarshalInt64, hp, jsonToInt64],
      by simp [FutureGetDifficultyResult.Receive, receiveFuture, unmarshalFloat, hp, jsonToFloat],
      by simp [FutureVerifyChainResult.Receive, receiveFuture, unmarshalBool, hp, jsonToBool]⟩
  · intro l v hj hv
    subst hj
    simp [FutureGetBlockCountResult.Receive, receiveFuture, unmarshalInt64, hp, jsonToInt64, hv]
  · intro b hj
    subst hj
    simp [FutureVerifyChainResult.Receive, receiveFuture, unmarshalBool, hp, jsonToBool]

/-- C8 witness: a boolean payload for the block-count decode fails with an
unmarshal type error and the zero value. -/
theorem scalar_decode_amended_witness :
    ∃ e, FutureGetBlockCountResult.Receive (response.ok "true") = ⟨0, some e⟩ ∧ e.isDecode = true :=
  (scalar_decode_amended "true" (Json.bool true) rfl).1 rfl rfl
